import Mathlib

/-!
Verification of the Discord bot's rate-limited AI dispatcher, intent
handling, response chunking, AFK listener and (spec-modelled) playback
queue, as a shallow embedding of `src/main.py`.

Modelling conventions:
* Python strings are `List Char` (`Str`); slicing, `lower`, `strip`,
  substring tests mirror the Python operations character-wise.
* `time.time()` readings are integer timestamps (`Int`); the source's
  float arithmetic is exact on integer inputs, so `int(x)` truncation
  is the identity in this model.
* Python dicts are association lists with first-match lookup; an
  update prepends, shadowing older bindings.
* Each async handler is embedded as a pure function from its inputs
  (message fields, clock reading, the values external calls would
  return, and the outcomes of the random draws) to its updated state
  and the ordered list of outbound effects it awaits.
-/

abbrev Str := List Char

/-- Python `s.lower()` (ASCII case folding, which covers every string the
handlers compare). -/
def lower (s : Str) : Str := s.map Char.toLower

/-- Python `s.strip()`: drop leading and trailing whitespace. -/
def strip (s : Str) : Str :=
  ((s.dropWhile Char.isWhitespace).reverse.dropWhile Char.isWhitespace).reverse

/-- Python `needle in hay` on strings (contiguous substring test): the
needle occurs starting at some position of the haystack. -/
def strIn (needle : Str) : Str → Bool
  | [] => needle.isEmpty
  | c :: t => needle.isPrefixOf (c :: t) || strIn needle t

/-- Python `hay.startswith(needle)`. -/
def startsWith (needle hay : Str) : Bool := needle.isPrefixOf hay

/-- Dict read with default: `d.get(k, dflt)` / `d.get(k, 0)` pattern. -/
def dictGet (d : List (Nat × Int)) (k : Nat) (dflt : Int) : Int :=
  match d.find? (fun p => p.1 == k) with
  | some p => p.2
  | none => dflt

/-- Dict write `d[k] = v`: prepend, shadowing older bindings under
first-match lookup. -/
def dictSet (d : List (Nat × Int)) (k : Nat) (v : Int) : List (Nat × Int) :=
  (k, v) :: d

/-- `random.choice(xs)` with the random draw resolved by an index
parameter (callers guarantee `xs` nonempty, as the source does). -/
def choice (xs : List Str) (i : Nat) : Str := xs.getD (i % xs.length) []

/-- Nat rendered as decimal characters (`str(n)` / f-string interpolation). -/
def natStr (n : Nat) : Str := (Nat.repr n).toList

/-- Int rendered as decimal characters. -/
def intStr (i : Int) : Str := (Int.repr i).toList

-- ==================== AI RATE LIMITER ====================

/-- `class AIRateLimiter` (src/main.py:145-170): per-user last-query
timestamps plus the configured cooldown in minutes.  The module-level
instance is constructed with `AI_COOLDOWN_MINUTES = 5`, which is also the
constructor default. -/
structure AIRateLimiter where
  cooldown_minutes : Nat := 5
  user_last_query : List (Nat × Int) := []
deriving DecidableEq, Repr

namespace AIRateLimiter

/-- `AIRateLimiter.can_query` (src/main.py:152-159).  `now` is the
`time.time()` reading.  Returns `(allowed, seconds_remaining)`;
`int(cooldown_seconds - time_passed)` is exact on integer timestamps. -/
def can_query (rl : AIRateLimiter) (now : Int) (user_id : Nat) : Bool × Int :=
  let last_query := dictGet rl.user_last_query user_id 0
  let time_passed := now - last_query
  let cooldown_seconds : Int := rl.cooldown_minutes * 60
  if cooldown_seconds ≤ time_passed then (true, 0)
  else (false, cooldown_seconds - time_passed)

/-- `AIRateLimiter.record_query` (src/main.py:161-162):
`self.user_last_query[user_id] = time.time()`. -/
def record_query (rl : AIRateLimiter) (now : Int) (user_id : Nat) : AIRateLimiter :=
  { rl with user_last_query := dictSet rl.user_last_query user_id now }

/-- `AIRateLimiter.get_remaining_time` (src/main.py:164-170). -/
def get_remaining_time (rl : AIRateLimiter) (now : Int) (user_id : Nat) : Str :=
  let seconds := (rl.can_query now user_id).2
  if seconds ≤ 0 then ("Ready to use").toList
  else
    let minutes := seconds / 60
    let secs := seconds % 60
    if 0 < minutes then intStr minutes ++ ("m ").toList ++ intStr secs ++ ("s").toList
    else intStr secs ++ ("s").toList

/-- The Python method body of `can_query` contains no write to
`user_last_query`; the state-passing form of the call therefore returns
the receiver unchanged. -/
def can_query_op (rl : AIRateLimiter) (now : Int) (user_id : Nat) :
    (Bool × Int) × AIRateLimiter :=
  (rl.can_query now user_id, rl)

end AIRateLimiter

-- ==================== MESSAGES AND EFFECTS ====================

/-- `AI_TRIGGER_PHRASE = "oh kp baa"` (src/main.py:44). -/
def aiTriggerPhrase : Str := ("oh kp baa").toList

/-- `AI_COOLDOWN_MINUTES = 5` (src/main.py:46). -/
def aiCooldownMinutes : Nat := 5

/-- An apostrophe character, spliced into reply texts. -/
def apos : Char := '\''

/-- The observable fields of an inbound Discord message used by
`on_message` and `afk_listener`: author flags and permissions, raw
content, and the mentioned user ids in order. -/
structure Msg where
  authorIsBot : Bool
  authorId : Nat
  isAdmin : Bool
  hasModPerm : Bool
  content : Str
  mentions : List Nat
deriving DecidableEq, Repr

/-- One awaited outbound interaction of a handler, in program order:
Discord sends/replies/reactions/moderation calls, the Gemini HTTP call,
and the rate-limiter write (kept in the trace so ordering is statable). -/
inductive Effect where
  | processCommands
  | reply (text : Str)
  | send (text : Str)
  | respond (text : Str)
  | deferResponse
  | followup (text : Str)
  | typing
  | geminiCall (prompt : Str)
  | recordQuery (user : Nat)
  | kick (user : Nat) (reason : Str)
  | ban (user : Nat) (reason : Str)
  | timeoutFor (user : Nat) (minutes : Option Nat) (reason : Str)
  | addReaction (emoji : Str)
  | editNick (user : Nat) (nick : Option Str)
deriving DecidableEq, Repr

/-- The text payload carried by an outbound chat message effect. -/
def effectText : Effect → Str
  | .reply t => t
  | .send t => t
  | .respond t => t
  | .followup t => t
  | _ => []

def isGeminiEffect : Effect → Bool
  | .geminiCall _ => true
  | _ => false

def isRecordEffect : Effect → Bool
  | .recordQuery _ => true
  | _ => false

/-- Concatenation, in delivery order, of the text payloads of a trace. -/
def concatTexts (es : List Effect) : Str := (es.map effectText).flatten

/-- A sequence of `can_query` calls in state-passing form, threading the
ledger through and collecting each call's result. -/
def canQueryRun : AIRateLimiter → List (Int × Nat) → AIRateLimiter × List (Bool × Int)
  | rl, [] => (rl, [])
  | rl, c :: cs =>
    let s := rl.can_query_op c.1 c.2
    let r := canQueryRun s.2 cs
    (r.1, s.1 :: r.2)

-- ==================== RESPONSE CHUNKING ====================

/-- Python `range(start, stop, step)` for a positive step. -/
def pyRange (start stop step : Nat) : List Nat :=
  (List.range ((stop - start + step - 1) / step)).map (fun k => start + k * step)

/-- `[response[i:i+1990] for i in range(0, len(response), 1990)]`
(src/main.py:378), generalised over the slice width. -/
def pyChunks (n : Nat) (l : Str) : List Str :=
  (pyRange 0 l.length n).map (fun i => (l.drop i).take n)

/-- The chunked delivery of the message-triggered AI path
(src/main.py:377-385): chunk 0 is a reply, later chunks are plain channel
sends; a response of at most 2000 characters is a single reply. -/
def aiMsgDeliver (response : Str) : List Effect :=
  if 2000 < response.length then
    match pyChunks 1990 response with
    | [] => []
    | c0 :: rest => Effect.reply c0 :: rest.map Effect.send
  else [Effect.reply response]

/-- `"..."` appended to the first slash-command chunk (src/main.py:863). -/
def dots : Str := ("...").toList

/-- `[response[i:i+1990] for i in range(1990, len(response), 1990)]`
(src/main.py:864): the slash-command chunks after the first. -/
def aiCmdChunksTail (response : Str) : List Str :=
  (pyRange 1990 response.length 1990).map (fun i => (response.drop i).take 1990)

/-- The chunked delivery of the `/ai` slash-command path
(src/main.py:861-867): the first followup is `response[:1990] + "..."`,
later chunks are plain channel sends; a response of at most 2000
characters is a single followup. -/
def aiCmdDeliver (response : Str) : List Effect :=
  if 2000 < response.length then
    Effect.followup (response.take 1990 ++ dots) :: (aiCmdChunksTail response).map Effect.send
  else [Effect.followup response]

-- ==================== REPLY TEXTS ====================

/-- Cooldown rejection reply of the message path (src/main.py:358-361). -/
def cooldownReplyText (remaining : Str) : Str :=
  ("⏰ Please wait **").toList ++ remaining
    ++ ("** before asking me another question!\n*Rate limit: 1 query every ").toList
    ++ natStr aiCooldownMinutes ++ (" minutes per user*").toList

/-- Empty-prompt usage hint (src/main.py:365). -/
def usageHintText : Str :=
  ("Please ask me a question!\nExample: `oh kp baa what is python?`").toList

/-- Over-length rejection (src/main.py:368). -/
def tooLongText : Str :=
  ("❌ Your question is too long! Please keep it under 500 characters.").toList

/-- Missing-permission reply of the moderation handler (src/main.py:410). -/
def modNoPermText : Str :=
  ("❌ You don").toList ++ [apos]
    ++ ("t have permission to use moderation commands!").toList

/-- Missing-mention reply of the moderation handler (src/main.py:414). -/
def modMentionText : Str :=
  ("❌ Please mention a user to moderate!").toList

/-- `"No reason provided"` default (src/main.py:417). -/
def noReasonText : Str := ("No reason provided").toList

/-- `member.mention` rendering `<@id>`. -/
def mentionText (uid : Nat) : Str :=
  ("<@").toList ++ natStr uid ++ (">").toList

def kickedText (uid : Nat) (reason : Str) : Str :=
  ("✅ Kicked ").toList ++ mentionText uid ++ (". Reason: ").toList ++ reason

def bannedText (uid : Nat) (reason : Str) : Str :=
  ("✅ Banned ").toList ++ mentionText uid ++ (". Reason: ").toList ++ reason

def mutedText (uid : Nat) (reason : Str) : Str :=
  ("✅ Muted ").toList ++ mentionText uid ++ (" for 5 minutes. Reason: ").toList ++ reason

def unmutedText (uid : Nat) : Str :=
  ("✅ Unmuted ").toList ++ mentionText uid

/-- `discord.Forbidden` reply of the moderation handler (src/main.py:432). -/
def modForbiddenText : Str :=
  ("❌ I don").toList ++ [apos] ++ ("t have permission to do that!").toList

-- ==================== MODERATION COMMAND ====================

/-- The lowercase keyword list `['kick', 'ban', 'mute', 'unmute']`
(src/main.py:370), in source order. -/
def kwStrs : List Str :=
  [("kick").toList, ("ban").toList, ("mute").toList, ("unmute").toList]

/-- Case-insensitive literal-keyword match at the head of `l` (one
alternative of the regex group `(kick|ban|mute|unmute)`); on success
returns the suffix after the keyword. -/
def parseKw (k l : Str) : Option Str :=
  if lower (l.take k.length) = k then some (l.drop k.length) else none

/-- Greedy `\s*`. -/
def skipWs (l : Str) : Str := l.dropWhile Char.isWhitespace

/-- The mention token regex `<@!?\d+>` at the head of `l`; on success
returns the suffix after the token. -/
def parseMentionTok (l : Str) : Option Str :=
  match l with
  | '<' :: '@' :: rest =>
    let rest2 := match rest with
      | '!' :: r => r
      | _ => rest
    if rest2.takeWhile Char.isDigit = [] then none
    else
      match rest2.dropWhile Char.isDigit with
      | '>' :: r => some r
      | _ => none
  | _ => none

/-- One keyword alternative followed by `\s*<@!?\d+>\s*`. -/
def tryKw (k l : Str) : Option Str :=
  match parseKw k l with
  | none => none
  | some r1 =>
    match parseMentionTok (skipWs r1) with
    | none => none
    | some r2 => some (skipWs r2)

/-- A match of the whole pattern `(kick|ban|mute|unmute)\s*<@!?\d+>\s*`
anchored at the head of `l`, trying the alternatives in regex order. -/
def tryPatAt (l : Str) : Option Str :=
  ((tryKw (("kick").toList) l).orElse fun _ =>
    (tryKw (("ban").toList) l).orElse fun _ =>
      (tryKw (("mute").toList) l).orElse fun _ =>
        tryKw (("unmute").toList) l)

/-- Fuelled scan of `re.sub(pattern, '', prompt)`: at each position emit
the pattern-free character or skip a whole match and continue after it
(non-overlapping, left to right).  Fuel `l.length` suffices because every
match consumes at least its keyword (3+ characters) while fuel drops by
one. -/
def reSubAux : Nat → Str → Str
  | 0, l => l
  | _ + 1, [] => []
  | fuel + 1, c :: rest =>
    match tryPatAt (c :: rest) with
    | some r => reSubAux fuel r
    | none => c :: reSubAux fuel rest

/-- `re.sub(r'(kick|ban|mute|unmute)\s*<@!?\d+>\s*', '', prompt,
flags=re.IGNORECASE)` (src/main.py:417). -/
def reSubModPat (l : Str) : Str := reSubAux l.length l

/-- The `reason` computed at src/main.py:417: pattern occurrences removed,
stripped, defaulting to the placeholder when empty. -/
def modReason (prompt : Str) : Str :=
  let r := strip (reSubModPat prompt)
  if r = [] then noReasonText else r

/-- `handle_moderation_command` (src/main.py:408-434) as its effect trace.
`apiOk` resolves whether the awaited Discord moderation call raises
`discord.Forbidden` (in which case the error reply is sent instead of the
success reply). -/
def handleModerationCommand (m : Msg) (prompt : Str) (apiOk : Bool) : List Effect :=
  if m.hasModPerm = false then [Effect.reply modNoPermText]
  else
    match m.mentions with
    | [] => [Effect.reply modMentionText]
    | target :: _ =>
      let reason := modReason prompt
      if strIn (("kick").toList) (lower prompt) then
        [Effect.kick target reason,
         Effect.reply (if apiOk then kickedText target reason else modForbiddenText)]
      else if strIn (("ban").toList) (lower prompt) then
        [Effect.ban target reason,
         Effect.reply (if apiOk then bannedText target reason else modForbiddenText)]
      else if strIn (("mute").toList) (lower prompt) then
        [Effect.timeoutFor target (some 5) reason,
         Effect.reply (if apiOk then mutedText target reason else modForbiddenText)]
      else if strIn (("unmute").toList) (lower prompt) then
        [Effect.timeoutFor target none reason,
         Effect.reply (if apiOk then unmutedText target else modForbiddenText)]
      else []

-- ==================== TRIGGER WORDS AND REACTIONS ====================

/-- `WITTY_RESPONSES.get(trigger, [])`. -/
def dictGetL (d : List (Str × List Str)) (k : Str) : List Str :=
  match d.find? (fun p => p.1 == k) with
  | some p => p.2
  | none => []

/-- The trigger-word loop (src/main.py:388-393): first trigger whose
lowercase form occurs in the lowered content and has a nonempty response
list wins; an empty response list keeps scanning. -/
def wittyEffects (triggerWords : List Str) (responses : List (Str × List Str))
    (contentLower : Str) (pick : Nat) : List Effect :=
  match triggerWords with
  | [] => []
  | t :: ts =>
    if strIn (lower t) contentLower then
      let rs := dictGetL responses t
      if rs = [] then wittyEffects ts responses contentLower pick
      else [Effect.send (choice rs pick)]
    else wittyEffects ts responses contentLower pick

/-- The configuration and random draws `on_message` consults, plus the
value the Gemini call would return and whether the awaited moderation
call succeeds. -/
structure MsgEnv where
  triggerWords : List Str
  wittyResponses : List (Str × List Str)
  samuUserId : Nat
  samuTagReactions : List Str
  generalReactions : List Str
  randBelow001 : Bool
  wittyChoice : Nat
  reactChoice : Nat
  geminiResponse : Str
  modApiOk : Bool
deriving DecidableEq, Repr

/-- The random-reaction block (src/main.py:396-406). -/
def reactionEffects (env : MsgEnv) (m : Msg) : List Effect :=
  if env.randBelow001 then
    let reactions :=
      if env.samuUserId ≠ 0 ∧ m.authorId = env.samuUserId then env.samuTagReactions
      else env.generalReactions
    if reactions = [] then [] else [Effect.addReaction (choice reactions env.reactChoice)]
  else []

-- ==================== ON_MESSAGE ====================

/-- `on_message` (src/main.py:344-406): the bot-author guard, command
processing, the AI trigger block (cooldown gate, prompt extraction,
empty/length checks, moderation-keyword dispatch, cooldown recording and
Gemini delivery), then the trigger-word loop and the random reaction.
Returns the rate limiter after the call and the ordered effect trace. -/
def onMessage (env : MsgEnv) (rl : AIRateLimiter) (m : Msg) (now : Int) :
    AIRateLimiter × List Effect :=
  if m.authorIsBot then (rl, [])
  else
    let contentLower := lower m.content
    let tailEffects :=
      wittyEffects env.triggerWords env.wittyResponses contentLower env.wittyChoice
        ++ reactionEffects env m
    if startsWith (lower aiTriggerPhrase) contentLower then
      if m.isAdmin = false ∧ (rl.can_query now m.authorId).1 = false then
        (rl, [Effect.processCommands,
              Effect.reply (cooldownReplyText (rl.get_remaining_time now m.authorId))])
      else
        let prompt := strip (m.content.drop aiTriggerPhrase.length)
        if prompt = [] then
          (rl, [Effect.processCommands, Effect.reply usageHintText])
        else if 500 < prompt.length then
          (rl, [Effect.processCommands, Effect.reply tooLongText])
        else if kwStrs.any (fun w => strIn w (lower prompt)) then
          (rl, Effect.processCommands :: handleModerationCommand m prompt env.modApiOk)
        else
          let rl' := if m.isAdmin then rl else rl.record_query now m.authorId
          (rl', Effect.processCommands
            :: (if m.isAdmin then [] else [Effect.recordQuery m.authorId])
            ++ Effect.typing :: Effect.geminiCall prompt
            :: aiMsgDeliver env.geminiResponse ++ tailEffects)
    else
      (rl, Effect.processCommands :: tailEffects)

-- ==================== /AI SLASH COMMAND ====================

/-- `ai_command` (src/main.py:839-870): cooldown gate (ephemeral
rejection), length check, defer, cooldown recording for non-admins, then
the Gemini call and chunked delivery. -/
def aiCommand (rl : AIRateLimiter) (userId : Nat) (isAdmin : Bool)
    (prompt : Str) (now : Int) (response : Str) : AIRateLimiter × List Effect :=
  if isAdmin = false ∧ (rl.can_query now userId).1 = false then
    (rl, [Effect.respond
      (("Please wait **").toList ++ rl.get_remaining_time now userId
        ++ ("** before asking another question!\n*Rate limit: 1 query every ").toList
        ++ natStr aiCooldownMinutes ++ (" minutes per user*").toList)])
  else if 500 < prompt.length then
    (rl, [Effect.respond tooLongText])
  else
    let rl' := if isAdmin then rl else rl.record_query now userId
    (rl', Effect.deferResponse
      :: (if isAdmin then [] else [Effect.recordQuery userId])
      ++ Effect.geminiCall prompt :: aiCmdDeliver response)

-- ==================== AFK LISTENER ====================

/-- One `afk_users` entry: `{"reason": str, "time": datetime}`
(src/main.py:1445). -/
structure AfkEntry where
  reason : Str
  time : Int
deriving DecidableEq, Repr

/-- `user_id in afk_users` / `afk_users[user_id]` under first-match
lookup. -/
def afkFind (d : List (Nat × AfkEntry)) (k : Nat) : Option AfkEntry :=
  (d.find? (fun p => p.1 == k)).map (fun p => p.2)

/-- `afk_users.pop(user_id)`: every binding of the key is removed so the
first-match view agrees with the Python dict after `pop`. -/
def afkPop (d : List (Nat × AfkEntry)) (k : Nat) : List (Nat × AfkEntry) :=
  d.filter (fun p => p.1 != k)

/-- Elapsed-minutes rendering of the welcome-back reply
(src/main.py:1477-1478); Python `//` is floor division. -/
def afkBackTimeStr (elapsed : Int) : Str :=
  let minutes := Int.fdiv elapsed 60
  if minutes ≠ 0 then
    intStr minutes ++ (" minute").toList ++ (if minutes ≠ 1 then ("s").toList else [])
  else ("less than a minute").toList

/-- Elapsed-minutes rendering of the AFK-ping notice
(src/main.py:1496-1497). -/
def afkPingTimeStr (elapsed : Int) : Str :=
  let minutes := Int.fdiv elapsed 60
  if minutes ≠ 0 then
    intStr minutes ++ (" minute").toList ++ (if minutes ≠ 1 then ("s").toList else [])
  else ("just now").toList

def afkBackText (uid : Nat) (timeStr : Str) : Str :=
  ("👋 Welcome back, ").toList ++ mentionText uid
    ++ ("! You were AFK for **").toList ++ timeStr ++ ("**.").toList

def afkPingText (display reason timeStr : Str) : Str :=
  ("💤 **").toList ++ display ++ ("** is AFK: *").toList ++ reason
    ++ ("* — went AFK ").toList ++ timeStr ++ (" ago.").toList

/-- The mention loop of `afk_listener` (src/main.py:1492-1501): notify
for each mentioned user who is AFK and is not the author. -/
def afkPings (afk : List (Nat × AfkEntry)) (authorId : Nat) (now : Int)
    (dn : Nat → Str) : List Nat → List Effect
  | [] => []
  | u :: us =>
    (match afkFind afk u with
     | some e =>
       if u ≠ authorId then
         [Effect.send (afkPingText (dn u) e.reason (afkPingTimeStr (now - e.time)))]
       else []
     | none => []) ++ afkPings afk authorId now dn us

/-- `afk_listener` (src/main.py:1468-1501): bot-author guard, welcome-back
pop (with nickname restore attempt), then AFK-ping notifications.  `dn`
supplies `display_name` per user id. -/
def afkListener (afk : List (Nat × AfkEntry)) (m : Msg) (now : Int)
    (dn : Nat → Str) : List (Nat × AfkEntry) × List Effect :=
  if m.authorIsBot then (afk, [])
  else
    let backPart :=
      match afkFind afk m.authorId with
      | some entry =>
        let nickEs :=
          if startsWith (("[AFK]").toList) (dn m.authorId) then
            let newNick := strip ((dn m.authorId).drop 6)
            [Effect.editNick m.authorId (if newNick = [] then none else some newNick)]
          else []
        (afkPop afk m.authorId,
         Effect.send (afkBackText m.authorId (afkBackTimeStr (now - entry.time))) :: nickEs)
      | none => (afk, ([] : List Effect))
    (backPart.1, backPart.2 ++ afkPings backPart.1 m.authorId now dn m.mentions)

-- ==================== PLAYBACK QUEUE (SPEC-MODELLED) ====================

/-- Modelled from the spec: `TrackDescriptor` (spec §3).  The repository
snapshot under `src/` contains no music-player code, so the playback data
model is taken from the specification's words. -/
structure TrackDescriptor where
  title : Str
  sourceQueryOrURL : Str
  streamURL : Str
  durationSeconds : Option Nat := none
  thumbnailURL : Option Str := none
  uploader : Option Str := none
  webpageURL : Option Str := none
deriving DecidableEq, Repr

/-- Modelled from the spec: `PlaybackQueue` (spec §3, §4.5) — ordered
`songs`, the `current` now-playing slot and the `loop` flag (the `volume`
field plays no part in the queue-advance contract and is omitted). -/
structure PlaybackQueue where
  songs : List TrackDescriptor
  current : Option TrackDescriptor
  loop : Bool
deriving DecidableEq, Repr

/-- Modelled from the spec: `enqueue(track)` appends to `songs`
(spec §4.5). -/
def PlaybackQueue.enqueue (q : PlaybackQueue) (t : TrackDescriptor) : PlaybackQueue :=
  { q with songs := q.songs ++ [t] }

/-- Modelled from the spec: `advance()` (spec §4.5) — if `loop` is true
and `current` is set, return `current` unchanged; otherwise pop the head
of `songs` into `current` and return it, or clear `current` and return
null when `songs` is empty. -/
def PlaybackQueue.advance (q : PlaybackQueue) : PlaybackQueue × Option TrackDescriptor :=
  if q.loop && q.current.isSome then (q, q.current)
  else
    match q.songs with
    | [] => ({ q with current := none }, none)
    | t :: rest => ({ q with songs := rest, current := some t }, some t)

/-- `n` successive `enqueue` calls. -/
def PlaybackQueue.enqueueAll (q : PlaybackQueue) (ts : List TrackDescriptor) : PlaybackQueue :=
  ts.foldl PlaybackQueue.enqueue q

/-- `n` successive `advance` calls, collecting the returned tracks in call
order. -/
def PlaybackQueue.advanceRun (q : PlaybackQueue) :
    Nat → PlaybackQueue × List (Option TrackDescriptor)
  | 0 => (q, [])
  | n + 1 =>
    let s := q.advance
    let r := PlaybackQueue.advanceRun s.1 n
    (r.1, s.2 :: r.2)

-- ==================== CONCRETE FIXTURES ====================

/-- Fixture: a non-admin, non-privileged user's plain AI question. -/
def mW : Msg := ⟨false, 7, false, false, ("oh kp baa what is nepal").toList, []⟩

/-- Fixture: empty configuration, deterministic draws, successful calls. -/
def envW : MsgEnv := ⟨[], [], 0, [], [], false, 0, 0, ("namaste").toList, true⟩

/-- Fixture: the freshly-constructed rate limiter. -/
def rlW : AIRateLimiter := {}

/-- Fixture: a message authored by a bot account. -/
def mBotW : Msg := ⟨true, 8, false, false, ("oh kp baa hello").toList, [4]⟩

/-- Fixture: a privileged unmute request mentioning user 123. -/
def mUnmuteW : Msg := ⟨false, 9, true, true, ("oh kp baa unmute <@123>").toList, [123]⟩

/-- Fixture: a privileged mute request carrying duration text. -/
def mMuteW : Msg :=
  ⟨false, 9, true, true, ("oh kp baa mute <@123> for 99 minutes").toList, [123]⟩

def trackA : TrackDescriptor := ⟨("A").toList, [], [], none, none, none, none⟩

def trackB : TrackDescriptor := ⟨("B").toList, [], [], none, none, none, none⟩

def emptyQueueW : PlaybackQueue := ⟨[], none, false⟩

def loopQueueW : PlaybackQueue := ⟨[trackB], some trackA, true⟩

/-- Fixture: content exactly the trigger phrase, non-admin sender 7. -/
def mEmptyW : Msg := ⟨false, 7, false, false, ("oh kp baa").toList, []⟩

/-- Fixture: trigger phrase plus whitespace only, administrator sender. -/
def mEmptyAdminW : Msg := ⟨false, 9, true, false, ("oh kp baa   ").toList, []⟩

/-- Fixture: user 7 last queried at time 1000. -/
def rlCooldownW : AIRateLimiter := { user_last_query := [(7, 1000)] }

/-- Fixture: an ordinary question containing the word ban, no mention. -/
def mBanQW : Msg :=
  ⟨false, 9, true, true, ("oh kp baa why did they ban this").toList, []⟩

/-- Fixture: the spec's kick scenario, mentioning user 123. -/
def mKickW : Msg :=
  ⟨false, 9, true, true, ("oh kp baa kick <@123> spamming").toList, [123]⟩

-- ==================== CHUNKING LEMMAS ====================

lemma le_ceilDiv_mul (a n : Nat) (hn : 0 < n) : a ≤ ((a + n - 1) / n) * n := by
  by_contra hcon
  push_neg at hcon
  have h1 : (((a + n - 1) / n) + 1) * n ≤ a + n - 1 := by
    have h2 : ((a + n - 1) / n) * n + n ≤ a + n - 1 := by omega
    calc (((a + n - 1) / n) + 1) * n = ((a + n - 1) / n) * n + n := by ring
    _ ≤ a + n - 1 := h2
  have h3 : ((a + n - 1) / n) + 1 ≤ (a + n - 1) / n :=
    (Nat.le_div_iff_mul_le hn).mpr h1
  omega

lemma flatten_map_slices (l : Str) (n : Nat) (k : Nat) :
    (List.flatten ((List.range k).map (fun i => (l.drop (0 + i * n)).take n)))
      = l.take (k * n) := by
  induction k with
  | zero => simp
  | succ k ih =>
    rw [List.range_succ, List.map_append, List.flatten_append, ih]
    simp only [List.map_cons, List.map_nil, List.flatten_cons, List.flatten_nil,
      List.append_nil, Nat.zero_add]
    rw [← List.take_add]
    congr 1
    ring

/-- Chunk coverage: for a positive width, concatenating the slices of
`pyChunks` in order reproduces the input exactly. -/
lemma pyChunks_flatten (n : Nat) (hn : 0 < n) (l : Str) :
    (pyChunks n l).flatten = l := by
  unfold pyChunks pyRange
  rw [List.map_map]
  have h := flatten_map_slices l n ((l.length - 0 + n - 1) / n)
  simp only [Function.comp_def] at h ⊢
  rw [h]
  exact List.take_of_length_le (by simpa using le_ceilDiv_mul l.length n hn)

/-- Chunk bound: every `pyChunks` slice has length at most the width. -/
lemma pyChunks_length_le (n : Nat) (l : Str) :
    ∀ c ∈ pyChunks n l, c.length ≤ n := by
  intro c hc
  unfold pyChunks at hc
  obtain ⟨i, _, rfl⟩ := List.mem_map.mp hc
  simp [List.length_take]

/-- Same bound for the slash-command tail chunks. -/
lemma aiCmdChunksTail_length_le (l : Str) :
    ∀ c ∈ aiCmdChunksTail l, c.length ≤ 1990 := by
  intro c hc
  unfold aiCmdChunksTail at hc
  obtain ⟨i, _, rfl⟩ := List.mem_map.mp hc
  simp [List.length_take]

lemma pyChunks_replicate_4200 :
    pyChunks 1990 (List.replicate 4200 'a')
      = [List.replicate 1990 'a', List.replicate 1990 'a', List.replicate 220 'a'] := by
  unfold pyChunks pyRange
  have hlen : (List.replicate 4200 'a').length = 4200 := List.length_replicate 4200 'a'
  rw [hlen]
  norm_num
  rw [show List.range 3 = [0, 1, 2] from by decide]
  simp only [Function.comp_def, List.map_cons, List.map_nil]
  norm_num

lemma aiMsgDeliver_concat (resp : Str) : concatTexts (aiMsgDeliver resp) = resp := by
  unfold aiMsgDeliver
  split
  case isTrue h =>
    have hcov := pyChunks_flatten 1990 (by norm_num) resp
    match hpc : pyChunks 1990 resp with
    | [] =>
      rw [hpc] at hcov
      simp at hcov
      rw [hcov] at h
      simp at h
    | c0 :: rest =>
      rw [hpc] at hcov
      simp only [concatTexts, List.map_cons, List.map_map, List.flatten_cons]
      have he : List.map (effectText ∘ Effect.send) rest = rest := by
        simp [Function.comp_def, effectText]
      rw [he]
      simpa using hcov
  case isFalse h => simp [concatTexts, effectText]

lemma aiCmdChunksTail_eq (resp : Str) :
    aiCmdChunksTail resp = pyChunks 1990 (resp.drop 1990) := by
  unfold aiCmdChunksTail pyChunks pyRange
  rw [List.map_map, List.map_map, List.length_drop]
  simp only [Nat.sub_zero, Function.comp_def, Nat.zero_add, List.drop_drop]

lemma aiCmdDeliver_concat (resp : Str) :
    concatTexts (aiCmdDeliver resp)
      = if 2000 < resp.length then resp.take 1990 ++ dots ++ resp.drop 1990
        else resp := by
  unfold aiCmdDeliver
  split
  case isTrue h =>
    simp only [concatTexts, List.map_cons, List.map_map, List.flatten_cons]
    have h2 : List.map (effectText ∘ Effect.send) (aiCmdChunksTail resp)
        = aiCmdChunksTail resp := by
      simp [Function.comp_def, effectText]
    rw [h2, aiCmdChunksTail_eq, pyChunks_flatten 1990 (by norm_num), effectText]
  case isFalse h => simp [concatTexts, effectText]

lemma aiCmd2001 :
    aiCmdDeliver (List.replicate 2001 'a')
      = [Effect.followup (List.replicate 1990 'a' ++ dots),
         Effect.send (List.replicate 11 'a')] := by
  unfold aiCmdDeliver
  rw [aiCmdChunksTail_eq]
  rw [List.length_replicate, List.take_replicate, List.drop_replicate]
  norm_num
  rw [show pyChunks 1990 (List.replicate 11 'a') = [List.replicate 11 'a'] from by decide]
  simp

lemma handleMod_not_ai (m : Msg) (prompt : Str) (ok : Bool) :
    ∀ e ∈ handleModerationCommand m prompt ok,
      isGeminiEffect e = false ∧ isRecordEffect e = false := by
  intro e he
  unfold handleModerationCommand at he
  dsimp only [] at he
  repeat' split at he
  all_goals simp_all [isGeminiEffect, isRecordEffect]
  all_goals rcases he with rfl | rfl <;> exact ⟨rfl, rfl⟩

lemma wittyEffects_not_ai (tws : List Str) (rs : List (Str × List Str))
    (cl : Str) (p : Nat) :
    ∀ e ∈ wittyEffects tws rs cl p,
      isGeminiEffect e = false ∧ isRecordEffect e = false := by
  induction tws with
  | nil => simp [wittyEffects]
  | cons t ts ih =>
    intro e he
    unfold wittyEffects at he
    dsimp only [] at he
    split at he
    · split at he
      · exact ih e he
      · simp_all [isGeminiEffect, isRecordEffect]
    · exact ih e he

lemma reactionEffects_not_ai (env : MsgEnv) (m : Msg) :
    ∀ e ∈ reactionEffects env m,
      isGeminiEffect e = false ∧ isRecordEffect e = false := by
  intro e he
  unfold reactionEffects at he
  dsimp only [] at he
  repeat' split at he
  all_goals simp_all [isGeminiEffect, isRecordEffect]

lemma aiMsgDeliver_not_ai (resp : Str) :
    ∀ e ∈ aiMsgDeliver resp,
      isGeminiEffect e = false ∧ isRecordEffect e = false := by
  intro e he
  unfold aiMsgDeliver at he
  repeat' split at he
  all_goals simp_all [isGeminiEffect, isRecordEffect]
  all_goals rcases he with rfl | ⟨x, hx, rfl⟩ <;> simp [isGeminiEffect, isRecordEffect]

lemma countP_zero_of_not {p : Effect → Bool} {es : List Effect}
    (h : ∀ e ∈ es, isGeminiEffect e = false ∧ isRecordEffect e = false)
    (hp : p = isGeminiEffect ∨ p = isRecordEffect) :
    es.countP p = 0 := by
  refine List.countP_eq_zero.mpr ?_
  intro e he
  rcases hp with rfl | rfl
  · simp [(h e he).1]
  · simp [(h e he).2]

/-- C3: for a non-bot, non-administrator sender, `record_query` appears in
the `on_message` trace exactly as often as the Gemini call (at most once);
when the query is accepted the record precedes the Gemini call and the
ledger is updated once, and on every rejected attempt (cooldown, empty
prompt, over-length prompt, moderation-keyword path) the ledger is
untouched. -/
theorem record_query_once_per_accepted_query
    (env : MsgEnv) (rl : AIRateLimiter) (m : Msg) (now : Int)
    (hb : m.authorIsBot = false) (ha : m.isAdmin = false) :
    ((onMessage env rl m now).2.countP isRecordEffect
        = (onMessage env rl m now).2.countP isGeminiEffect)
    ∧ (onMessage env rl m now).2.countP isGeminiEffect ≤ 1
    ∧ (0 < (onMessage env rl m now).2.countP isGeminiEffect →
        (onMessage env rl m now).2.findIdx isRecordEffect
          < (onMessage env rl m now).2.findIdx isGeminiEffect
        ∧ (onMessage env rl m now).1 = rl.record_query now m.authorId)
    ∧ ((onMessage env rl m now).2.countP isGeminiEffect = 0 →
        (onMessage env rl m now).1 = rl) := by
  have hwz : ∀ p, p = isGeminiEffect ∨ p = isRecordEffect →
      (wittyEffects env.triggerWords env.wittyResponses (lower m.content) env.wittyChoice
        ++ reactionEffects env m).countP p = 0 := by
    intro p hp
    rw [List.countP_append,
      countP_zero_of_not (wittyEffects_not_ai _ _ _ _) hp,
      countP_zero_of_not (reactionEffects_not_ai _ _) hp]
  have hdz : ∀ p, p = isGeminiEffect ∨ p = isRecordEffect →
      (aiMsgDeliver env.geminiResponse).countP p = 0 :=
    fun p hp => countP_zero_of_not (aiMsgDeliver_not_ai _) hp
  unfold onMessage
  simp only [hb, Bool.false_eq_true, if_false]
  split
  case isTrue =>
    split
    case isTrue =>
      refine ⟨by simp [List.countP_cons, isRecordEffect, isGeminiEffect], ?_, ?_, ?_⟩
      · simp [List.countP_cons, isGeminiEffect]
      · intro h0
        simp [List.countP_cons, isGeminiEffect] at h0
      · intro _; rfl
    case isFalse hgate =>
      split
      case isTrue =>
        refine ⟨by simp [List.countP_cons, isRecordEffect, isGeminiEffect], ?_, ?_, ?_⟩
        · simp [List.countP_cons, isGeminiEffect]
        · intro h0
          simp [List.countP_cons, isGeminiEffect] at h0
        · intro _; rfl
      case isFalse =>
        split
        case isTrue =>
          refine ⟨by simp [List.countP_cons, isRecordEffect, isGeminiEffect], ?_, ?_, ?_⟩
          · simp [List.countP_cons, isGeminiEffect]
          · intro h0
            simp [List.countP_cons, isGeminiEffect] at h0
          · intro _; rfl
        case isFalse =>
          split
          case isTrue =>
            have hmz : ∀ p, p = isGeminiEffect ∨ p = isRecordEffect →
                (handleModerationCommand m
                  (strip (m.content.drop aiTriggerPhrase.length)) env.modApiOk).countP p = 0 :=
              fun p hp => countP_zero_of_not (handleMod_not_ai _ _ _) hp
            refine ⟨?_, ?_, ?_, ?_⟩
            · simp [List.countP_cons, isRecordEffect, isGeminiEffect,
                hmz _ (Or.inl rfl), hmz _ (Or.inr rfl)]
            · simp [List.countP_cons, isGeminiEffect, hmz _ (Or.inl rfl)]
            · intro h0
              simp [List.countP_cons, isGeminiEffect, hmz _ (Or.inl rfl)] at h0
            · intro _; rfl
          case isFalse =>
            simp only [ha, Bool.false_eq_true, if_false]
            refine ⟨?_, ?_, ?_, ?_⟩
            · simp [List.countP_cons, List.countP_append, isRecordEffect, isGeminiEffect,
                hdz _ (Or.inl rfl), hdz _ (Or.inr rfl),
                hwz _ (Or.inl rfl), hwz _ (Or.inr rfl)]
            · simp [List.countP_cons, List.countP_append, isGeminiEffect,
                hdz _ (Or.inl rfl), hwz _ (Or.inl rfl)]
            · intro h0
              constructor
              · simp [List.findIdx_cons, isRecordEffect, isGeminiEffect]
              · trivial
            · intro h0
              simp [List.countP_cons, List.countP_append, isGeminiEffect,
                hdz _ (Or.inl rfl), hwz _ (Or.inl rfl)] at h0
  case isFalse =>
    refine ⟨?_, ?_, ?_, ?_⟩
    · simp [List.countP_cons, isRecordEffect, isGeminiEffect,
        hwz _ (Or.inl rfl), hwz _ (Or.inr rfl)]
    · simp [List.countP_cons, isGeminiEffect, hwz _ (Or.inl rfl)]
    · intro h0
      simp [List.countP_cons, isGeminiEffect, hwz _ (Or.inl rfl)] at h0
    · intro _; rfl
/-- C4: after `record_query` at time `T`, `can_query` at `Tq` within the
window returns `(false, cooldownSeconds - (Tq - T))`, the integer seconds
until `T + cooldownSeconds`; `can_query` is allowed exactly when the
elapsed time since the last recorded query (default 0) reaches
`cooldown_minutes * 60`, returning `(true, 0)` then; the default
configuration gives a 300-second window. -/
theorem can_query_cooldown_semantics
    (rl : AIRateLimiter) (u : Nat) (T Tq : Int)
    (h : Tq - T < (rl.cooldown_minutes : Int) * 60) :
    ((rl.record_query T u).can_query Tq u
        = (false, (rl.cooldown_minutes : Int) * 60 - (Tq - T)))
    ∧ (∀ now, ((rl.can_query now u).1 = true
        ↔ ((rl.cooldown_minutes : Int) * 60 ≤ now - dictGet rl.user_last_query u 0)))
    ∧ (∀ now, (rl.can_query now u).1 = true → rl.can_query now u = (true, 0))
    ∧ (({} : AIRateLimiter).cooldown_minutes * 60 = 300) := by
  refine ⟨?_, ?_, ?_, rfl⟩
  · unfold AIRateLimiter.record_query AIRateLimiter.can_query dictGet dictSet
    simp [List.find?]
    omega
  · intro now
    simp only [AIRateLimiter.can_query]
    split
    case isTrue h2 => simpa using h2
    case isFalse h2 => simpa using h2
  · intro now hq
    simp only [AIRateLimiter.can_query] at hq ⊢
    split at hq
    case isTrue h2 => rw [if_pos h2]
    case isFalse h2 => exact absurd hq (by simp)

theorem can_query_cooldown_semantics_witness :
    ((1000 : Int) - 900 < ((rlW.cooldown_minutes : Int) * 60)) ∧
    (rlW.record_query 900 7).can_query 1000 7
      = (false, (rlW.cooldown_minutes : Int) * 60 - ((1000 : Int) - 900)) :=
  ⟨by decide, (can_query_cooldown_semantics rlW 7 900 1000 (by decide)).1⟩

/-- C5: `can_query` never writes the ledger: any sequence of `can_query`
calls in state-passing form leaves `user_last_query` exactly as it was,
and each call's result depends only on the initial ledger and its own
clock reading, so repeated rejected probes never move the cooldown. -/
theorem can_query_is_ledger_pure (rl : AIRateLimiter) (calls : List (Int × Nat)) :
    canQueryRun rl calls = (rl, calls.map (fun c => rl.can_query c.1 c.2)) := by
  induction calls with
  | nil => rfl
  | cons c cs ih => simp [canQueryRun, AIRateLimiter.can_query_op, ih]

lemma enqueueAll_eq (q : PlaybackQueue) (ts : List TrackDescriptor) :
    q.enqueueAll ts = { q with songs := q.songs ++ ts } := by
  induction ts generalizing q with
  | nil => simp [PlaybackQueue.enqueueAll]
  | cons t ts ih =>
    show PlaybackQueue.enqueueAll (q.enqueue t) ts = _
    rw [ih]
    simp [PlaybackQueue.enqueue]

lemma advanceRun_fifo : ∀ (ts : List TrackDescriptor) (q : PlaybackQueue),
    q.loop = false → q.songs = ts → (q.advanceRun ts.length).2 = ts.map some := by
  intro ts
  induction ts with
  | nil => intro q _ _; rfl
  | cons t rest ih =>
    intro q hl hs
    show ((q.advanceRun (rest.length + 1)).2 = _)
    have hadv : q.advance = ({ q with songs := rest, current := some t }, some t) := by
      unfold PlaybackQueue.advance
      rw [hl, hs]
      rfl
    unfold PlaybackQueue.advanceRun
    rw [hadv]
    dsimp only []
    rw [ih { q with songs := rest, current := some t } (by simpa using hl) rfl]
    rfl

/-- C8: the queue-advance contract — with `loop` off, `n` enqueues
followed by `n` advances return the tracks in enqueue order; `advance` on
empty `songs` (when the loop-repeat case does not apply) clears `current`
and returns none; with `loop` on and `current` set, `advance` returns
`current` and leaves the queue unchanged. -/
theorem playback_queue_advance_contract
    (q : PlaybackQueue) (ts : List TrackDescriptor) (t : TrackDescriptor) :
    (q.loop = false → q.songs = [] →
        ((q.enqueueAll ts).advanceRun ts.length).2 = ts.map some)
    ∧ (q.songs = [] → (q.loop = false ∨ q.current = none) →
        q.advance = ({ q with current := none }, none))
    ∧ (q.loop = true → q.current = some t → q.advance = (q, some t)) := by
  refine ⟨?_, ?_, ?_⟩
  · intro hl hs
    exact advanceRun_fifo ts (q.enqueueAll ts) (by rw [enqueueAll_eq]; simpa using hl)
      (by rw [enqueueAll_eq]; simp [hs])
  · intro hs hlc
    unfold PlaybackQueue.advance
    rw [hs]
    rcases hlc with hl | hc
    · rw [hl]; rfl
    · rw [hc]; simp
  · intro hl hc
    unfold PlaybackQueue.advance
    rw [hl, hc]
    rfl

theorem playback_queue_advance_contract_witness :
    ((emptyQueueW.enqueueAll [trackA, trackB]).advanceRun 2).2 = [some trackA, some trackB]
    ∧ loopQueueW.advance = (loopQueueW, some trackA) :=
  ⟨by
    have h := (playback_queue_advance_contract emptyQueueW [trackA, trackB] trackA).1 rfl rfl
    simpa using h,
   (playback_queue_advance_contract loopQueueW [] trackA).2.2 rfl rfl⟩

/-- C9: a message authored by a bot account produces no outbound effect
at all and leaves both the cooldown ledger and the AFK map untouched, in
both `on_message` and `afk_listener`. -/
theorem bot_author_no_effects
    (env : MsgEnv) (rl : AIRateLimiter) (m : Msg) (now : Int)
    (afk : List (Nat × AfkEntry)) (dn : Nat → Str)
    (hb : m.authorIsBot = true) :
    onMessage env rl m now = (rl, []) ∧ afkListener afk m now dn = (afk, []) := by
  constructor <;> simp [onMessage, afkListener, hb]

theorem bot_author_no_effects_witness :
    onMessage envW rlW mBotW 0 = (rlW, []) ∧
    afkListener [(4, ⟨("brb").toList, 0⟩)] mBotW 0 (fun _ => []) = ([(4, ⟨("brb").toList, 0⟩)], []) :=
  bot_author_no_effects envW rlW mBotW 0 [(4, ⟨("brb").toList, 0⟩)] (fun _ => []) rfl

/-- C10: at the failing input `oh kp baa unmute <@123>` (privileged
caller, one mention) the handler executes the mute branch — `'mute' in
prompt.lower()` is tested before `'unmute'` and `"mute"` is a substring
of `"unmute"` — so the target is timed out for 5 minutes instead of
having the timeout cleared; the unmute branch is unreachable.  The mute
half of the claim holds: duration text in the message is ignored and the
timeout is always 5 minutes. -/
theorem unmute_executes_mute_branch :
    onMessage envW rlW mUnmuteW 0
      = (rlW, [Effect.processCommands,
               Effect.timeoutFor 123 (some 5) noReasonText,
               Effect.reply (mutedText 123 noReasonText)])
    ∧ onMessage envW rlW mMuteW 0
      = (rlW, [Effect.processCommands,
               Effect.timeoutFor 123 (some 5) (("for 99 minutes").toList),
               Effect.reply (mutedText 123 (("for 99 minutes").toList))]) := by
  constructor <;> decide

/-- C2 counterexample: sender 7 last queried at 1000 and writes exactly
the trigger phrase at 1100; the handler replies with the remaining-time
message, not the usage hint, so the empty-prompt check does not take
precedence over the cooldown check. -/
theorem empty_prompt_cooldown_cx :
    onMessage envW rlCooldownW mEmptyW 1100
      = (rlCooldownW, [Effect.processCommands,
          Effect.reply (cooldownReplyText (("3m 20s").toList))])
    ∧ Effect.reply usageHintText ∉ (onMessage envW rlCooldownW mEmptyW 1100).2 := by
  constructor <;> decide

/-- C2 amended: the cooldown gate runs first.  For a message that is the
trigger phrase followed only by whitespace, a sender who is an
administrator or whose cooldown allows receives the usage hint, while a
non-administrator within cooldown receives the remaining-time reply. -/
theorem empty_prompt_after_cooldown_gate
    (env : MsgEnv) (rl : AIRateLimiter) (m : Msg) (now : Int)
    (hb : m.authorIsBot = false)
    (ht : startsWith (lower aiTriggerPhrase) (lower m.content) = true)
    (he : strip (m.content.drop aiTriggerPhrase.length) = []) :
    ((m.isAdmin = true ∨ (rl.can_query now m.authorId).1 = true) →
      (onMessage env rl m now).2 = [Effect.processCommands, Effect.reply usageHintText])
    ∧ ((m.isAdmin = false ∧ (rl.can_query now m.authorId).1 = false) →
      (onMessage env rl m now).2
        = [Effect.processCommands,
           Effect.reply (cooldownReplyText (rl.get_remaining_time now m.authorId))]) := by
  unfold onMessage
  simp only [hb, Bool.false_eq_true, if_false]
  constructor
  · intro hg
    split
    case isTrue =>
      split
      case isTrue hcond =>
        exfalso
        rcases hg with ha | hc
        · rw [ha] at hcond; simp at hcond
        · rw [hc] at hcond; simp at hcond
      case isFalse => rfl
    case isFalse hts => exact absurd ht hts
  · intro hg
    split
    case isTrue => rfl
    case isFalse hts => exact absurd ht hts

theorem empty_prompt_after_cooldown_gate_witness :
    (onMessage envW rlW mEmptyAdminW 0).2
      = [Effect.processCommands, Effect.reply usageHintText] :=
  (empty_prompt_after_cooldown_gate envW rlW mEmptyAdminW 0 rfl (by decide)
    (by decide)).1 (Or.inl rfl)

/-- C1 counterexample: an ordinary question containing the word ban with
no user mentioned is routed to the moderation handler, which replies with
the mention-required error; no `AskAI` path is taken and the
text-generation call is never made. -/
theorem moderation_keyword_without_mention_cx :
    onMessage envW rlW mBanQW 0
      = (rlW, [Effect.processCommands, Effect.reply modMentionText])
    ∧ Effect.geminiCall (("why did they ban this").toList)
        ∉ (onMessage envW rlW mBanQW 0).2 := by
  constructor <;> decide

/-- C1 amended: for an addressed message that passes the cooldown gate,
with a non-empty remainder of at most 500 characters containing one of
kick/ban/mute/unmute (case-insensitive substring), the dispatcher always
invokes the moderation handler — regardless of mentions — and never makes
the text-generation call.  The handler replies with a permission error for
callers without moderate-members; with a mention-required error when no
user is mentioned; otherwise it performs the action chosen by substring
precedence kick > ban > mute > unmute on the first mentioned user, with
the reason obtained by deleting keyword-followed-by-mention occurrences
(placeholder when empty). -/
theorem moderation_keyword_dispatch_amended
    (env : MsgEnv) (rl : AIRateLimiter) (m : Msg) (now : Int) (prompt : Str)
    (hb : m.authorIsBot = false)
    (ht : startsWith (lower aiTriggerPhrase) (lower m.content) = true)
    (hp : prompt = strip (m.content.drop aiTriggerPhrase.length))
    (hne : prompt ≠ [])
    (hlen : ¬ 500 < prompt.length)
    (hgate : m.isAdmin = true ∨ (rl.can_query now m.authorId).1 = true)
    (hkw : (kwStrs.any fun w => strIn w (lower prompt)) = true) :
    (onMessage env rl m now
        = (rl, Effect.processCommands :: handleModerationCommand m prompt env.modApiOk))
    ∧ (onMessage env rl m now).2.countP isGeminiEffect = 0
    ∧ (m.hasModPerm = false →
        handleModerationCommand m prompt env.modApiOk = [Effect.reply modNoPermText])
    ∧ (m.hasModPerm = true → m.mentions = [] →
        handleModerationCommand m prompt env.modApiOk = [Effect.reply modMentionText])
    ∧ (∀ target rest2, m.hasModPerm = true → m.mentions = target :: rest2 →
        (strIn (("kick").toList) (lower prompt) = true →
          handleModerationCommand m prompt env.modApiOk
            = [Effect.kick target (modReason prompt),
               Effect.reply (if env.modApiOk then kickedText target (modReason prompt)
                 else modForbiddenText)])
        ∧ (strIn (("kick").toList) (lower prompt) = false →
           strIn (("ban").toList) (lower prompt) = true →
          handleModerationCommand m prompt env.modApiOk
            = [Effect.ban target (modReason prompt),
               Effect.reply (if env.modApiOk then bannedText target (modReason prompt)
                 else modForbiddenText)])
        ∧ (strIn (("kick").toList) (lower prompt) = false →
           strIn (("ban").toList) (lower prompt) = false →
           strIn (("mute").toList) (lower prompt) = true →
          handleModerationCommand m prompt env.modApiOk
            = [Effect.timeoutFor target (some 5) (modReason prompt),
               Effect.reply (if env.modApiOk then mutedText target (modReason prompt)
                 else modForbiddenText)])
        ∧ (strIn (("kick").toList) (lower prompt) = false →
           strIn (("ban").toList) (lower prompt) = false →
           strIn (("mute").toList) (lower prompt) = false →
           strIn (("unmute").toList) (lower prompt) = true →
          handleModerationCommand m prompt env.modApiOk
            = [Effect.timeoutFor target none (modReason prompt),
               Effect.reply (if env.modApiOk then unmutedText target
                 else modForbiddenText)])) := by
  have hdispatch : onMessage env rl m now
      = (rl, Effect.processCommands :: handleModerationCommand m prompt env.modApiOk) := by
    unfold onMessage
    simp only [hb, Bool.false_eq_true, if_false]
    rw [← hp] at *
    split
    case isTrue =>
      split
      case isTrue hcond =>
        exfalso
        rcases hgate with ha | hc
        · rw [ha] at hcond; simp at hcond
        · rw [hc] at hcond; simp at hcond
      case isFalse => rfl
    case isFalse hts => exact absurd ht hts
  refine ⟨hdispatch, ?_, ?_, ?_, ?_⟩
  · rw [hdispatch]
    simp [List.countP_cons, isGeminiEffect,
      countP_zero_of_not (handleMod_not_ai m prompt env.modApiOk) (Or.inl rfl)]
  · intro hmp
    unfold handleModerationCommand
    rw [hmp]
    rfl
  · intro hmp hmen
    unfold handleModerationCommand
    rw [hmp, hmen]
    rfl
  · intro target rest2 hmp hmen
    refine ⟨?_, ?_, ?_, ?_⟩
    · intro hk
      unfold handleModerationCommand
      rw [hmp, hmen]
      simp only [hk, if_true]
      rfl
    · intro hk hbn
      unfold handleModerationCommand
      rw [hmp, hmen]
      simp only [hk, hbn, Bool.false_eq_true, if_false, if_true]
      rfl
    · intro hk hbn hmu
      unfold handleModerationCommand
      rw [hmp, hmen]
      simp only [hk, hbn, hmu, Bool.false_eq_true, if_false, if_true]
      rfl
    · intro hk hbn hmu hun
      unfold handleModerationCommand
      rw [hmp, hmen]
      simp only [hk, hbn, hmu, hun, Bool.false_eq_true, if_false, if_true]
      rfl

/-- C1 amended witness: the spec scenario kick `<@123>` spamming. -/
theorem moderation_keyword_dispatch_amended_witness :
    handleModerationCommand mKickW (("kick <@123> spamming").toList) envW.modApiOk
      = [Effect.kick 123 (("spamming").toList),
         Effect.reply (kickedText 123 (("spamming").toList))] := by
  have h := ((moderation_keyword_dispatch_amended envW rlW mKickW 0
      (("kick <@123> spamming").toList) rfl (by decide) (by decide) (by decide)
      (by decide) (Or.inl rfl) (by decide)).2.2.2.2 123 [] rfl rfl).1 (by decide)
  rw [h]
  decide

/-- C3 witness: the fixture question records exactly as often as it
queries Gemini. -/
theorem record_query_once_per_accepted_query_witness :
    (onMessage envW rlW mW 0).2.countP isRecordEffect
      = (onMessage envW rlW mW 0).2.countP isGeminiEffect :=
  (record_query_once_per_accepted_query envW rlW mW 0 rfl rfl).1

/-- C6 counterexample: for a 2001-character response the `/ai` path does
not reproduce the response — `"..."` is inserted after the first 1990
characters. -/
theorem slash_chunk_concat_cx :
    concatTexts (aiCmdDeliver (List.replicate 2001 'a')) ≠ List.replicate 2001 'a' := by
  have hval : concatTexts (aiCmdDeliver (List.replicate 2001 'a'))
      = List.replicate 1990 'a' ++ dots ++ List.replicate 11 'a' := by
    rw [aiCmd2001]
    simp only [concatTexts, List.map_cons, List.map_nil, effectText,
      List.flatten_cons, List.flatten_nil, List.append_nil, List.append_assoc]
  rw [hval]
  intro h
  have hlen := congrArg List.length h
  simp only [List.length_append, List.length_replicate,
    show dots.length = 3 from rfl] at hlen
  omega

/-- C6 amended: the message-triggered path reproduces every response
exactly; the `/ai` path reproduces it exactly up to 2000 characters, and
above that inserts `"..."` after the first 1990 characters. -/
theorem chunk_concat_amended (resp : Str) :
    concatTexts (aiMsgDeliver resp) = resp
    ∧ concatTexts (aiCmdDeliver resp)
        = (if 2000 < resp.length then resp.take 1990 ++ dots ++ resp.drop 1990
           else resp) :=
  ⟨aiMsgDeliver_concat resp, aiCmdDeliver_concat resp⟩

/-- C7 counterexample: for a 2001-character response the first `/ai`
outbound message is 1993 characters long (1990 plus the appended
`"..."`), exceeding the 1990 chunk limit. -/
theorem slash_first_chunk_length_cx :
    (aiCmdDeliver (List.replicate 2001 'a')).map (fun e => (effectText e).length)
      = [1993, 11]
    ∧ ¬ (∀ e ∈ aiCmdDeliver (List.replicate 2001 'a'),
          (effectText e).length ≤ 1990) := by
  constructor
  · rw [aiCmd2001]
    simp only [List.map_cons, List.map_nil, effectText, List.length_append,
      List.length_replicate, show dots.length = 3 from rfl]
  · intro hall
    have hmem : Effect.followup (List.replicate 1990 'a' ++ dots)
        ∈ aiCmdDeliver (List.replicate 2001 'a') := by
      rw [aiCmd2001]
      exact List.mem_cons_self _ _
    have hle := hall _ hmem
    simp only [effectText, List.length_append, List.length_replicate,
      show dots.length = 3 from rfl] at hle
    omega

/-- C7 amended: responses of at most 2000 characters go out as a single
message on both paths; above that, every message-path chunk is at most
1990 characters and 4200 identical characters yield exactly the chunks
1990/1990/220; on the `/ai` path the first message is the 1990-character
slice plus `"..."` (1993 characters) and all later chunks are at most
1990. -/
theorem chunk_bound_amended (resp : Str) :
    (resp.length ≤ 2000 →
        aiMsgDeliver resp = [Effect.reply resp]
        ∧ aiCmdDeliver resp = [Effect.followup resp])
    ∧ (2000 < resp.length → ∀ e ∈ aiMsgDeliver resp, (effectText e).length ≤ 1990)
    ∧ (aiMsgDeliver (List.replicate 4200 'a')
        = [Effect.reply (List.replicate 1990 'a'),
           Effect.send (List.replicate 1990 'a'),
           Effect.send (List.replicate 220 'a')])
    ∧ ((pyChunks 1990 (List.replicate 4200 'a')).map List.length = [1990, 1990, 220])
    ∧ (2000 < resp.length →
        ((aiCmdDeliver resp).map (fun e => (effectText e).length)
          = (1990 + dots.length) :: (aiCmdChunksTail resp).map List.length)
        ∧ ∀ c ∈ aiCmdChunksTail resp, c.length ≤ 1990) := by
  refine ⟨?_, ?_, ?_, ?_, ?_⟩
  · intro hle
    constructor
    · unfold aiMsgDeliver
      rw [if_neg (by omega)]
    · unfold aiCmdDeliver
      rw [if_neg (by omega)]
  · intro hgt e he
    unfold aiMsgDeliver at he
    rw [if_pos hgt] at he
    have hsub : ∀ c ∈ pyChunks 1990 resp, c.length ≤ 1990 := pyChunks_length_le 1990 resp
    match hpc : pyChunks 1990 resp with
    | [] => rw [hpc] at he; simp at he
    | c0 :: rest =>
      rw [hpc] at he
      rcases List.mem_cons.mp he with rfl | hrest
      · simpa [effectText] using hsub c0 (by rw [hpc]; exact List.mem_cons_self c0 rest)
      · obtain ⟨x, hx, rfl⟩ := List.mem_map.mp hrest
        simpa [effectText] using hsub x (by rw [hpc]; exact List.mem_cons_of_mem c0 hx)
  · unfold aiMsgDeliver
    rw [if_pos (by rw [List.length_replicate]; norm_num), pyChunks_replicate_4200]
    rfl
  · rw [pyChunks_replicate_4200]
    simp only [List.map_cons, List.map_nil, List.length_replicate]
  · intro hgt
    constructor
    · unfold aiCmdDeliver
      rw [if_pos hgt]
      simp only [List.map_cons, List.map_map, effectText, Function.comp_def]
      congr 1
      rw [List.length_append, List.length_take]
      omega
    · exact aiCmdChunksTail_length_le resp

/-- C7 amended witness: a short response and a 2001-character response. -/
theorem chunk_bound_amended_witness :
    (aiMsgDeliver (("ok").toList) = [Effect.reply (("ok").toList)]
      ∧ aiCmdDeliver (("ok").toList) = [Effect.followup (("ok").toList)])
    ∧ ((aiCmdDeliver (List.replicate 2001 'a')).map (fun e => (effectText e).length)
        = (1990 + dots.length)
            :: (aiCmdChunksTail (List.replicate 2001 'a')).map List.length) :=
  ⟨(chunk_bound_amended (("ok").toList)).1 (by decide),
   ((chunk_bound_amended (List.replicate 2001 'a')).2.2.2.2
      (by rw [List.length_replicate]; norm_num)).1⟩
